import Mathlib

/-!
Verification of the terminal-menu component of the zmk-setup script
(`zmk/setup/menu.py` and `zmk/setup/terminal.py`).

The menu state (`_focus_index`, `_scroll_index`) is embedded with Python
integers as `Int`.  Keys are the byte strings the terminal layer produces,
embedded as `List Nat` of byte values.  The blocking render/input loop of
`TerminalMenu.show` is embedded as a function consuming an explicit list of
per-frame inputs (terminal size and key event for each frame), so a run of
the loop is determined by the item count, the initial focus and scroll
indices, and that input list.
-/

namespace ZmkSetup

/-! ### Key constants from `terminal.py`

`ESCAPE = b"\x1b"`, `RETURN = b"\n"`, `UP = b"\x1b[A"`, `DOWN = b"\x1b[B"`,
`RIGHT = b"\x1b[C"`, `LEFT = b"\x1b[D"`, `END = b"\x1b[F"`,
`HOME = b"\x1b[H"`, `PAGE_UP = b"\x1b[5~"`, `PAGE_DOWN = b"\x1b[6~"`,
written out as byte values. -/

def ESCAPE : List Nat := [27]

def RETURN : List Nat := [10]

def UP : List Nat := [27, 91, 65]

def DOWN : List Nat := [27, 91, 66]

def RIGHT : List Nat := [27, 91, 67]

def LEFT : List Nat := [27, 91, 68]

def END : List Nat := [27, 91, 70]

def HOME : List Nat := [27, 91, 72]

def PAGE_UP : List Nat := [27, 91, 53, 126]

def PAGE_DOWN : List Nat := [27, 91, 54, 126]

/-- `_MenuSize` from `menu.py`: terminal width and the height available to
the menu (`terminal lines - 3`, so it may be small or even non-positive). -/
structure MenuSize where
  width : Int
  height : Int
deriving DecidableEq

/-- A key event delivered by `terminal.read_key`: either a byte string, or a
`KeyboardInterrupt` raised for Ctrl+C. -/
inductive KeyEvent where
  | key (bytes : List Nat)
  | interrupt
deriving DecidableEq

/-- The input one iteration of the `show` loop consumes: the terminal size
queried at the top of the frame and the key event read at the bottom. -/
structure FrameInput where
  size : MenuSize
  event : KeyEvent
deriving DecidableEq

/-- `TerminalMenu._get_display_count`: `min(len(self.items), menu_size.height)`. -/
def get_display_count (items_count : Int) (size : MenuSize) : Int :=
  min items_count size.height

/-- `TerminalMenu._get_scroll_index`, translated clause for clause from
`menu.py`.  `items_count` is `len(self.items)`, `focus_index` is
`self._focus_index` and `scroll_index` is the current `self._scroll_index`. -/
def get_scroll_index (items_count : Int) (size : MenuSize)
    (focus_index scroll_index : Int) : Int :=
  let display_count := get_display_count items_count size
  if items_count < display_count then 0
  else
    let first_displayed := scroll_index
    let last_displayed := first_displayed + display_count - 1
    if focus_index ≤ first_displayed then max 0 (focus_index - 1)
    else if focus_index ≥ last_displayed then
      min (items_count - 1) (focus_index + 1) - (display_count - 1)
    else scroll_index

/-- The clamp on the last line of `TerminalMenu._handle_input`:
`min(max(0, self._focus_index), len(self.items) - 1)`. -/
def clamp_focus (items_count focus : Int) : Int :=
  min (max 0 focus) (items_count - 1)

/-- Result of one call to `TerminalMenu._handle_input`: `select` is the
`return True` taken for `RETURN`, `cancel` is the `raise StopMenu()` taken
for `ESCAPE`, `interrupt` is a `KeyboardInterrupt` escaping from
`read_key`, and `cont fi` is `return False` with the mutated (and clamped)
`self._focus_index = fi`. -/
inductive InputResult where
  | select
  | cancel
  | interrupt
  | cont (focus_index : Int)
deriving DecidableEq

/-- `TerminalMenu._handle_input`, translated clause for clause from
`menu.py`. -/
def handle_input (items_count : Int) (size : MenuSize) (focus : Int) :
    KeyEvent → InputResult
  | .interrupt => .interrupt
  | .key k =>
    if k = RETURN then .select
    else if k = ESCAPE then .cancel
    else
      let f :=
        if k = UP then focus - 1
        else if k = DOWN then focus + 1
        else if k = PAGE_UP then focus - size.height
        else if k = PAGE_DOWN then focus + size.height
        else if k = HOME then 0
        else if k = END then items_count - 1
        else focus
      .cont (clamp_focus items_count f)

/-- The item indices `TerminalMenu._print_menu` reads in one frame:
`self._scroll_index + row` for `row in range(display_count)`.  A
non-positive `display_count` prints no items, like Python `range`. -/
def frame_accesses (items_count : Int) (size : MenuSize) (scroll : Int) :
    List Int :=
  (List.range (get_display_count items_count size).toNat).map
    fun row => scroll + (row : Int)

/-- How one run of the `show` loop ended, with the final values the object
attributes `_focus_index` and `_scroll_index` hold at that point:
`selected` is the `return self.items[self._focus_index]` path, `canceled`
is the `StopMenu` raised for Escape, `interrupted` a `KeyboardInterrupt`
escaping the loop, and `outOfInput` marks a run that is still blocked
reading the next key when the supplied input list ends. -/
inductive LoopExit where
  | selected (focus scroll : Int)
  | canceled (focus scroll : Int)
  | interrupted (focus scroll : Int)
  | outOfInput (focus scroll : Int)
deriving DecidableEq

/-- The `while True` loop of `TerminalMenu.show`, driven by an explicit list
of per-frame inputs.  Each iteration recomputes the scroll index
(`_update_scroll_index`), records the item indices `_print_menu` reads,
and dispatches on `_handle_input`; on `select` the final
`self.items[self._focus_index]` read is recorded as well.  Returns the
item indices read from `self.items`, in order, together with the exit. -/
def show_loop (items_count : Int) :
    List FrameInput → Int → Int → List Int × LoopExit
  | [], focus, scroll => ([], .outOfInput focus scroll)
  | fi :: rest, focus, scroll =>
    let scroll' := get_scroll_index items_count fi.size focus scroll
    let acc := frame_accesses items_count fi.size scroll'
    match handle_input items_count fi.size focus fi.event with
    | .select => (acc ++ [focus], .selected focus scroll')
    | .cancel => (acc, .canceled focus scroll')
    | .interrupt => (acc, .interrupted focus scroll')
    | .cont f' =>
      let r := show_loop items_count rest f' scroll'
      (acc ++ r.1, r.2)

/-- The menu state recorded right after `_update_scroll_index` in each
iteration of the `show` loop: `(focus_index, scroll_index, display_count)`
for that frame. -/
def update_states (items_count : Int) :
    List FrameInput → Int → Int → List (Int × Int × Int)
  | [], _, _ => []
  | fi :: rest, focus, scroll =>
    let scroll' := get_scroll_index items_count fi.size focus scroll
    (focus, scroll', get_display_count items_count fi.size) ::
      match handle_input items_count fi.size focus fi.event with
      | .select => []
      | .cancel => []
      | .interrupt => []
      | .cont f' => update_states items_count rest f' scroll'

/-- The attributes of a `TerminalMenu` object that the `show` loop reads or
writes: `default_index` (set in `__init__`, never mutated) and the mutable
`_focus_index` and `_scroll_index`. -/
structure TerminalMenuState where
  default_index : Int
  focus_index : Int
  scroll_index : Int
deriving DecidableEq

/-- `TerminalMenu.__init__`: stores `default_index` and sets
`self._focus_index = 0` and `self._scroll_index = 0`. -/
def menu_init (default_index : Int) : TerminalMenuState :=
  ⟨default_index, 0, 0⟩

def exit_focus : LoopExit → Int
  | .selected f _ => f
  | .canceled f _ => f
  | .interrupted f _ => f
  | .outOfInput f _ => f

def exit_scroll : LoopExit → Int
  | .selected _ s => s
  | .canceled _ s => s
  | .interrupted _ s => s
  | .outOfInput _ s => s

/-- `TerminalMenu.show` as a state transformer on the object: it assigns
`self._focus_index = self.default_index` and enters the loop with the
object's current `_scroll_index` (which `show` itself never resets).  The
result pairs the loop's item accesses and exit with the object state left
behind for a later call. -/
def menu_show (items_count : Int) (m : TerminalMenuState)
    (inputs : List FrameInput) :
    (List Int × LoopExit) × TerminalMenuState :=
  let r := show_loop items_count inputs m.default_index m.scroll_index
  (r, ⟨m.default_index, exit_focus r.2, exit_scroll r.2⟩)

/-! ### Printing (`TerminalMenu._print_item`, `terminal.colorize`)

Display text is embedded as `List Char` (Python `str` indexing and `len`
are by character).  The terminal width is a character count, so it is a
`Nat`. -/

/-- `terminal.colorize`: wraps `text` in the ANSI SGR codes
`ESC [ color m ... ESC [ 0 m`. -/
def colorize (text : List Char) (color : List Char) : List Char :=
  [Char.ofNat 27, '['] ++ color ++ ['m'] ++ text ++
    [Char.ofNat 27, '[', '0', 'm']

/-- Python `str.ljust`: pad on the right with spaces to length `width`
(a no-op when the string is already at least that long). -/
def py_ljust (s : List Char) (width : Nat) : List Char :=
  s ++ List.replicate (width - s.length) ' '

/-- The text `TerminalMenu._print_item` builds between the color codes:
`("> "` or `"  ")` + formatted item text, then `text[0:width]`, then
`text.ljust(width)`.  `formatted` is `self.formatter(item)`. -/
def print_item_text (formatted : List Char) (focused : Bool) (width : Nat) :
    List Char :=
  let indent := if focused then ['>', ' '] else [' ', ' ']
  let text := indent ++ formatted
  let text := text.take width
  py_ljust text width

/-- The full line `TerminalMenu._print_item` prints: the padded text wrapped
by `terminal.colorize` with the focus color or `"0"`. -/
def print_item_line (formatted : List Char) (focused : Bool) (width : Nat)
    (focus_color : List Char) : List Char :=
  colorize (print_item_text formatted focused width)
    (if focused then focus_color else ['0'])

/-! ### Terminal side effects of `TerminalMenu.show`

`show` runs its loop inside `with terminal.hide_cursor()` (a context
manager whose `finally` re-shows the cursor) and inside a `try` whose
`finally` prints one blank line.  The observable writes are embedded as an
effect trace. -/

/-- One observable terminal write of the menu: `cursorHide`/`cursorShow`
are the `"\x1b[?25l"` / `"\x1b[?25h"` writes of `terminal.hide_cursor`;
`titleLine` and `itemLine i` are the lines `_print_menu` prints;
`cursorReset` is the cursor repositioning of `_reset_cursor_to_top`;
`blankLine` is the bare `print()` in the `finally` of `show`. -/
inductive ShowEffect where
  | cursorHide
  | cursorShow
  | titleLine
  | itemLine (index : Int)
  | cursorReset
  | blankLine
deriving DecidableEq

/-- The writes of one `_print_menu` call: the title line then one item line
per visible row. -/
def frame_effects (items_count : Int) (size : MenuSize) (scroll : Int) :
    List ShowEffect :=
  .titleLine :: (frame_accesses items_count size scroll).map .itemLine

/-- The writes the body of the `while True` loop performs before it
terminates (by selection, cancellation, or an escaping interrupt).
`_reset_cursor_to_top` runs only when the loop continues. -/
def loop_effects (items_count : Int) :
    List FrameInput → Int → Int → List ShowEffect
  | [], _, _ => []
  | fi :: rest, focus, scroll =>
    let scroll' := get_scroll_index items_count fi.size focus scroll
    let eff := frame_effects items_count fi.size scroll'
    match handle_input items_count fi.size focus fi.event with
    | .select => eff
    | .cancel => eff
    | .interrupt => eff
    | .cont f' => eff ++ [.cursorReset] ++ loop_effects items_count rest f' scroll'

/-- The complete write trace of one `show` call: `hide_cursor` writes the
hide code on entry and, in its `finally`, the show code on every exit path
(return, `StopMenu`, `KeyboardInterrupt`); the outer `finally` of `show`
then prints the single blank separator line, again on every exit path. -/
def show_effects (items_count : Int) (m : TerminalMenuState)
    (inputs : List FrameInput) : List ShowEffect :=
  .cursorHide ::
    (loop_effects items_count inputs m.default_index m.scroll_index ++
      [.cursorShow, .blankLine])

/-! ### `show_prompt` -/

/-- Python list indexing `l[i]`: a negative index counts from the end, an
index out of both ranges raises `IndexError` (`none`). -/
def py_index (l : List String) (i : Int) : Option String :=
  if 0 ≤ i then
    if i < (l.length : Int) then l.get? i.toNat else none
  else
    if 0 ≤ (l.length : Int) + i then l.get? ((l.length : Int) + i).toNat
    else none

/-- The outcome of `show_prompt`: `answer b` is a normal return (it catches
`StopMenu` and returns `False`), `interrupted` is a `KeyboardInterrupt` it
does not catch, `outOfInput` a run still waiting for a key. -/
inductive PromptResult where
  | answer (b : Bool)
  | interrupted
  | outOfInput
deriving DecidableEq

/-- `show_prompt` from `menu.py`: builds a fresh menu over
`[_YES, _NO] = ["Yes", "No"]` with `default_index = 1 if default_no else 0`,
shows it, and returns `result == _YES`, with `StopMenu` caught and turned
into `False`. -/
def show_prompt (default_no : Bool) (inputs : List FrameInput) :
    PromptResult :=
  let r := menu_show 2 (menu_init (if default_no then 1 else 0)) inputs
  match r.1.2 with
  | .selected f _ => .answer (py_index ["Yes", "No"] f == some "Yes")
  | .canceled _ _ => .answer false
  | .interrupted _ _ => .interrupted
  | .outOfInput _ _ => .outOfInput

/-! ### Raw key decoding (`terminal.read_key`, both platforms) -/

/-- The `_WINDOWS_SPECIAL_KEYS` scan-code table from `terminal.py`, with
`dict.get(code, b"")` built in. -/
def WINDOWS_SPECIAL_KEYS (code : Nat) : List Nat :=
  if code = 71 then HOME
  else if code = 72 then UP
  else if code = 73 then PAGE_UP
  else if code = 75 then LEFT
  else if code = 77 then RIGHT
  else if code = 79 then END
  else if code = 80 then DOWN
  else if code = 81 then PAGE_DOWN
  else []

/-- Result of `read_key`: either a byte string or a raised
`KeyboardInterrupt`. -/
inductive ReadKeyResult where
  | interrupt
  | key (bytes : List Nat)
deriving DecidableEq

/-- The Windows `read_key` from `terminal.py`, over the bytes `msvcrt.getch`
delivers: `first` is the first `getch` result and `second` the one consumed
only when `first` is `0x00` or `0xe0` (a console special-key event).
`0x03` (Ctrl+C) raises `KeyboardInterrupt`, `0x0d` (`b"\r"`) maps to
`RETURN`, special-key prefixes map the scan code through
`_WINDOWS_SPECIAL_KEYS`, anything else is returned as is. -/
def read_key_windows (first : Nat) (second : Nat) : ReadKeyResult :=
  if first = 3 then .interrupt
  else if first = 13 then .key RETURN
  else if first = 0 ∨ first = 224 then .key (WINDOWS_SPECIAL_KEYS second)
  else .key [first]

/-- The Unix `read_key` from `terminal.py`: with echo and canonical mode
disabled it returns `os.read(stdin, 4)`, i.e. up to 4 raw bytes of the
escape sequence the terminal delivered, unchanged. -/
def read_key_unix (pending : List Nat) : List Nat :=
  pending.take 4

/-- The logical keypresses both decoders must agree on (the vocabulary of
claim C9). -/
inductive LogicalKey where
  | retKey
  | upKey
  | downKey
  | leftKey
  | rightKey
  | homeKey
  | endKey
  | pageUpKey
  | pageDownKey
deriving DecidableEq

/-- Modelled from the spec: the byte sequence an ANSI/xterm terminal
delivers on stdin for each logical keypress (the sequences the termios
implementation is specified to recognize; Return arrives as a newline
byte).  These bytes are produced by the terminal, not by this repository. -/
def xterm_bytes : LogicalKey → List Nat
  | .retKey => [10]
  | .upKey => [27, 91, 65]
  | .downKey => [27, 91, 66]
  | .leftKey => [27, 91, 68]
  | .rightKey => [27, 91, 67]
  | .homeKey => [27, 91, 72]
  | .endKey => [27, 91, 70]
  | .pageUpKey => [27, 91, 53, 126]
  | .pageDownKey => [27, 91, 54, 126]

/-- Modelled from the spec: the `msvcrt.getch` byte pair the Windows console
delivers for each logical keypress — Return arrives as a carriage return,
the others as an `0xe0` prefix byte followed by the vendor scan code (the
codes enumerated in `_WINDOWS_SPECIAL_KEYS`).  These bytes are produced by
the console API, not by this repository. -/
def windows_events : LogicalKey → Nat × Nat
  | .retKey => (13, 0)
  | .upKey => (224, 72)
  | .downKey => (224, 80)
  | .leftKey => (224, 75)
  | .rightKey => (224, 77)
  | .homeKey => (224, 71)
  | .endKey => (224, 79)
  | .pageUpKey => (224, 73)
  | .pageDownKey => (224, 81)

/-! ### Definitions taken from the spec's words, for comparison with the
source functions -/

/-- The scroll-window update exactly as the spec states it: "let
`displayCount = min(len(items), viewportHeight)`; if
`len(items) <= displayCount`, `scrollIndex = 0`", then the
`lastDisplayed` cases.  Written from the spec's words, to be compared
with `get_scroll_index` (the source uses a strict `<` in the first
condition where the spec says `<=`). -/
def claimed_scroll_index (items_count viewport_height focus scroll : Int) :
    Int :=
  let displayCount := min items_count viewport_height
  if items_count ≤ displayCount then 0
  else
    let lastDisplayed := scroll + displayCount - 1
    if focus ≤ scroll then max 0 (focus - 1)
    else if focus ≥ lastDisplayed then
      min (items_count - 1) (focus + 1) - (displayCount - 1)
    else scroll

/-- The scroll-window formula of claim C1 amended in its first condition
only: the code returns `0` when `len(items) < displayCount` (strict), not
when `len(items) <= displayCount`. -/
def amended_scroll_index (items_count viewport_height focus scroll : Int) :
    Int :=
  let displayCount := min items_count viewport_height
  if items_count < displayCount then 0
  else
    let lastDisplayed := scroll + displayCount - 1
    if focus ≤ scroll then max 0 (focus - 1)
    else if focus ≥ lastDisplayed then
      min (items_count - 1) (focus + 1) - (displayCount - 1)
    else scroll

/-- The six navigation keys of claim C3. -/
def nav_keys : List (List Nat) :=
  [UP, DOWN, HOME, END, PAGE_UP, PAGE_DOWN]

/-- The successive values of `self._focus_index` as `_handle_input` runs on
a sequence of (terminal size, key) pairs. -/
def nav_focus_states (items_count : Int) :
    List (MenuSize × List Nat) → Int → List Int
  | [], _ => []
  | (sz, k) :: rest, f =>
    match handle_input items_count sz f (.key k) with
    | .cont f' => f' :: nav_focus_states items_count rest f'
    | _ => []

/-- A run on a 10-item menu during which the terminal viewport height
changes 5 → 5 → 1 → 3 between frames: End, then Up, then Down, then
Return. -/
def resize_crash_inputs : List FrameInput :=
  [⟨⟨80, 5⟩, .key END⟩, ⟨⟨80, 5⟩, .key UP⟩,
    ⟨⟨80, 1⟩, .key DOWN⟩, ⟨⟨80, 3⟩, .key RETURN⟩]

/-! ### Helper lemmas -/

/-- With at least one item, an in-range focus and a nonnegative incoming
scroll index, `_get_scroll_index` never goes negative. -/
theorem get_scroll_index_nonneg (n : Int) (sz : MenuSize) (f s : Int)
    (hn : 1 ≤ n) (hs : 0 ≤ s) (hf0 : 0 ≤ f) (hf1 : f ≤ n - 1) :
    0 ≤ get_scroll_index n sz f s := by
  unfold get_scroll_index get_display_count
  dsimp only
  split_ifs <;> omega

/-- When the frame displays at least 2 rows and fewer rows than there are
items, `_get_scroll_index` places the focused item inside the displayed
window. -/
theorem get_scroll_index_window (n : Int) (sz : MenuSize) (f s : Int)
    (hn : 1 ≤ n) (hs : 0 ≤ s) (hf0 : 0 ≤ f) (hf1 : f ≤ n - 1)
    (hc2 : 2 ≤ get_display_count n sz) (hcn : get_display_count n sz < n) :
    get_scroll_index n sz f s ≤ f ∧
      f ≤ get_scroll_index n sz f s + get_display_count n sz - 1 := by
  unfold get_scroll_index get_display_count at *
  dsimp only at *
  split_ifs <;> omega

/-- When every item fits in the viewport and the incoming scroll index is
`0`, `_get_scroll_index` keeps it at `0`. -/
theorem get_scroll_index_zero (n : Int) (sz : MenuSize) (f : Int)
    (hn : 1 ≤ n) (hf0 : 0 ≤ f) (hf1 : f ≤ n - 1)
    (hcn : n ≤ get_display_count n sz) :
    get_scroll_index n sz f 0 = 0 := by
  unfold get_scroll_index get_display_count at *
  dsimp only at *
  split_ifs <;> omega

/-- Whenever `_handle_input` continues the loop, the focus it leaves behind
is clamped into `[0, len(items) - 1]`. -/
theorem handle_input_cont_range (n : Int) (sz : MenuSize) (f f' : Int)
    (ev : KeyEvent) (hn : 1 ≤ n)
    (h : handle_input n sz f ev = .cont f') : 0 ≤ f' ∧ f' ≤ n - 1 := by
  cases ev with
  | interrupt => exact absurd h (by simp [handle_input])
  | key k =>
    unfold handle_input at h
    dsimp only at h
    split_ifs at h <;>
      first
        | exact InputResult.noConfusion h
        | (rw [InputResult.cont.injEq] at h; unfold clamp_focus at h; omega)

/-- Along any run of the `show` loop that starts with an in-range focus and
a nonnegative scroll index, every state recorded right after
`_update_scroll_index` has an in-range focus and a nonnegative scroll
index. -/
theorem update_states_mem (n : Int) (hn : 1 ≤ n) :
    ∀ (inputs : List FrameInput) (f s : Int), 0 ≤ f → f ≤ n - 1 → 0 ≤ s →
      ∀ st ∈ update_states n inputs f s,
        (0 ≤ st.1 ∧ st.1 ≤ n - 1) ∧ 0 ≤ st.2.1 := by
  intro inputs
  induction inputs with
  | nil =>
    intro f s _ _ _ st hst
    simp [update_states] at hst
  | cons fi rest ih =>
    intro f s hf0 hf1 hs st hst
    have hscroll := get_scroll_index_nonneg n fi.size f s hn hs hf0 hf1
    rw [update_states] at hst
    rcases List.mem_cons.mp hst with heq | htail
    · subst heq
      exact ⟨⟨hf0, hf1⟩, hscroll⟩
    · rcases hh : handle_input n fi.size f fi.event with _ | _ | _ | f'
      all_goals rw [hh] at htail
      · exact absurd htail (List.not_mem_nil st)
      · exact absurd htail (List.not_mem_nil st)
      · exact absurd htail (List.not_mem_nil st)
      · obtain ⟨hf0', hf1'⟩ := handle_input_cont_range n fi.size f f' fi.event hn hh
        exact ih f' (get_scroll_index n fi.size f s) hf0' hf1' hscroll st htail

/-- When every frame's viewport is tall enough for all items and the run
starts with scroll index `0`, every recorded scroll index stays `0`. -/
theorem update_states_scroll_zero (n : Int) (hn : 1 ≤ n) :
    ∀ (inputs : List FrameInput) (f : Int), 0 ≤ f → f ≤ n - 1 →
      (∀ fi ∈ inputs, n ≤ fi.size.height) →
      ∀ st ∈ update_states n inputs f 0, st.2.1 = 0 := by
  intro inputs
  induction inputs with
  | nil =>
    intro f _ _ _ st hst
    simp [update_states] at hst
  | cons fi rest ih =>
    intro f hf0 hf1 hfit st hst
    have hcnt : n ≤ get_display_count n fi.size := by
      have := hfit fi (List.mem_cons_self fi rest)
      unfold get_display_count
      omega
    have hzero : get_scroll_index n fi.size f 0 = 0 :=
      get_scroll_index_zero n fi.size f hn hf0 hf1 hcnt
    rw [update_states] at hst
    rcases List.mem_cons.mp hst with heq | htail
    · subst heq
      exact hzero
    · rcases hh : handle_input n fi.size f fi.event with _ | _ | _ | f'
      all_goals rw [hh] at htail
      · exact absurd htail (List.not_mem_nil st)
      · exact absurd htail (List.not_mem_nil st)
      · exact absurd htail (List.not_mem_nil st)
      · obtain ⟨hf0', hf1'⟩ := handle_input_cont_range n fi.size f f' fi.event hn hh
        rw [hzero] at htail
        exact ih f' hf0' hf1'
          (fun g hg => hfit g (List.mem_cons_of_mem fi hg)) st htail

/-- If a run of the `show` loop ends in a selection, the focus index it
returns the item of is in `[0, len(items) - 1]`, provided the run started
with an in-range focus. -/
theorem show_loop_selected_range (n : Int) (hn : 1 ≤ n) :
    ∀ (inputs : List FrameInput) (f0 s0 f s : Int), 0 ≤ f0 → f0 ≤ n - 1 →
      (show_loop n inputs f0 s0).2 = .selected f s → 0 ≤ f ∧ f ≤ n - 1 := by
  intro inputs
  induction inputs with
  | nil =>
    intro f0 s0 f s _ _ h
    exact absurd h (by simp [show_loop])
  | cons fi rest ih =>
    intro f0 s0 f s hf0 hf1 h
    rw [show_loop] at h
    rcases hh : handle_input n fi.size f0 fi.event with _ | _ | _ | f'
    all_goals rw [hh] at h
    · rw [LoopExit.selected.injEq] at h
      exact ⟨h.1 ▸ hf0, h.1 ▸ hf1⟩
    · exact LoopExit.noConfusion h
    · exact LoopExit.noConfusion h
    · obtain ⟨hf0', hf1'⟩ := handle_input_cont_range n fi.size f0 f' fi.event hn hh
      exact ih f' (get_scroll_index n fi.size f0 s0) f s hf0' hf1' h

/-- The loop body only ever writes the title, item lines and cursor
repositioning; cursor visibility changes and the blank separator line come
only from the wrappers around the loop. -/
theorem loop_effects_mem (n : Int) :
    ∀ (inputs : List FrameInput) (f s : Int), ∀ e ∈ loop_effects n inputs f s,
      e = .titleLine ∨ (∃ i, e = .itemLine i) ∨ e = .cursorReset := by
  intro inputs
  induction inputs with
  | nil =>
    intro f s e he
    simp [loop_effects] at he
  | cons fi rest ih =>
    intro f s e he
    rw [loop_effects] at he
    have hframe : ∀ x ∈ frame_effects n fi.size
        (get_scroll_index n fi.size f s),
        x = ShowEffect.titleLine ∨ (∃ i, x = ShowEffect.itemLine i) ∨
          x = ShowEffect.cursorReset := by
      intro x hx
      rcases List.mem_cons.mp hx with h1 | h2
      · exact Or.inl h1
      · obtain ⟨i, _, hi⟩ := List.mem_map.mp h2
        exact Or.inr (Or.inl ⟨i, hi.symm⟩)
    rcases hh : handle_input n fi.size f fi.event with _ | _ | _ | f'
    all_goals rw [hh] at he
    · exact hframe e he
    · exact hframe e he
    · exact hframe e he
    · rcases List.mem_append.mp he with h1 | h2
      · rcases List.mem_append.mp h1 with h3 | h4
        · exact hframe e h3
        · rcases List.mem_singleton.mp h4 with rfl
          exact Or.inr (Or.inr rfl)
      · exact ih f' (get_scroll_index n fi.size f s) e h2

/-- Along any run of the `show` loop from an in-range focus and nonnegative
scroll index, every state recorded right after `_update_scroll_index` has a
nonnegative scroll index, and whenever that frame displays at least 2 rows
and fewer rows than there are items, its window contains the focus. -/
theorem update_states_window (n : Int) (hn : 1 ≤ n) :
    ∀ (inputs : List FrameInput) (f s : Int), 0 ≤ f → f ≤ n - 1 → 0 ≤ s →
      ∀ fc sc cnt : Int, (fc, sc, cnt) ∈ update_states n inputs f s →
        0 ≤ sc ∧ (2 ≤ cnt → cnt < n → sc ≤ fc ∧ fc ≤ sc + cnt - 1) := by
  intro inputs
  induction inputs with
  | nil =>
    intro f s _ _ _ fc sc cnt h
    simp [update_states] at h
  | cons fi rest ih =>
    intro f s hf0 hf1 hs fc sc cnt hst
    have hscroll := get_scroll_index_nonneg n fi.size f s hn hs hf0 hf1
    rw [update_states] at hst
    rcases List.mem_cons.mp hst with heq | htail
    · rw [Prod.mk.injEq, Prod.mk.injEq] at heq
      obtain ⟨rfl, rfl, rfl⟩ := heq
      refine ⟨hscroll, fun hc2 hcn => ?_⟩
      exact get_scroll_index_window n fi.size fc s hn hs hf0 hf1 hc2 hcn
    · rcases hh : handle_input n fi.size f fi.event with _ | _ | _ | f'
      all_goals rw [hh] at htail
      · exact absurd htail (List.not_mem_nil _)
      · exact absurd htail (List.not_mem_nil _)
      · exact absurd htail (List.not_mem_nil _)
      · obtain ⟨hf0', hf1'⟩ := handle_input_cont_range n fi.size f f' fi.event hn hh
        exact ih f' (get_scroll_index n fi.size f s) hf0' hf1' hscroll fc sc cnt htail

/-! ### Claims -/

/-- C1 (counterexample): the claim's scroll formula zeroes the scroll index
whenever `len(items) <= displayCount`, but at `items_count = 5`,
`viewportHeight = 5`, `focusIndex = 3`, `scrollIndex = 2` the code keeps
`scrollIndex = 2` (its first condition is the strict
`items_count < display_count`, which never holds since
`display_count = min(items_count, height)`). -/
theorem scroll_index_claim_counterexample :
    claimed_scroll_index 5 5 3 2 = 0 ∧
      get_scroll_index 5 ⟨80, 5⟩ 3 2 = 2 ∧ (2 : Int) ≠ 0 := by decide

/-- C1 (amended): `_get_scroll_index` computes exactly the claimed formula
with the first condition amended from `len(items) <= displayCount` to the
strict `len(items) < displayCount`; and in the concrete scenario with
`viewportHeight = 5` and 20 items, focus at item 0 gives scroll index 0,
End (focus 19) gives 15, and Home (focus 0) gives 0 again. -/
theorem scroll_index_formula_amended
    (items_count width height focus scroll : Int) :
    get_scroll_index items_count ⟨width, height⟩ focus scroll =
      amended_scroll_index items_count height focus scroll ∧
    update_states 20
        [⟨⟨80, 5⟩, .key END⟩, ⟨⟨80, 5⟩, .key HOME⟩, ⟨⟨80, 5⟩, .key RETURN⟩]
        0 0 = [(0, 0, 5), (19, 15, 5), (0, 0, 5)] :=
  ⟨rfl, by decide⟩

/-- C2 (counterexample): the scroll-window invariant fails on a reachable
state.  On a 10-item menu starting fresh (focus 0, scroll 0), after End at
viewport height 5, Up at height 5, and a frame at height 1, the state
right after the scroll update is `focusIndex = 8`, `scrollIndex = 9`,
`visibleCount = 1`: `len(items) > visibleCount` holds but
`scrollIndex <= focusIndex` does not. -/
theorem scroll_invariant_counterexample :
    ((8 : Int), (9 : Int), (1 : Int)) ∈ update_states 10
        [⟨⟨80, 5⟩, .key END⟩, ⟨⟨80, 5⟩, .key UP⟩, ⟨⟨80, 1⟩, .key RETURN⟩]
        0 0 ∧
      (1 : Int) < 10 ∧ ¬ ((9 : Int) ≤ 8) := by decide

/-- C2 (amended): for every run of the `show` loop from an in-range focus
and nonnegative scroll index, every state after a scroll-window update has
`scrollIndex >= 0`, and `scrollIndex <= focusIndex <= scrollIndex +
visibleCount - 1` whenever `len(items) > visibleCount >= 2` (a one-row or
smaller viewport can break the window invariant); and `scrollIndex == 0`
throughout whenever the run starts at scroll index 0 and every frame's
viewport fits all items (if the viewport shrinks below the item count in
between, a nonzero scroll index can survive a later frame that fits all
items). -/
theorem scroll_window_invariant_amended (n : Int) (inputs : List FrameInput)
    (f0 s0 : Int) (hn : 1 ≤ n) (hf0 : 0 ≤ f0) (hf1 : f0 ≤ n - 1)
    (hs : 0 ≤ s0) :
    (∀ fc sc cnt : Int, (fc, sc, cnt) ∈ update_states n inputs f0 s0 →
        0 ≤ sc ∧ (2 ≤ cnt → cnt < n → sc ≤ fc ∧ fc ≤ sc + cnt - 1)) ∧
      (s0 = 0 → (∀ fi ∈ inputs, n ≤ fi.size.height) →
        ∀ st ∈ update_states n inputs f0 s0, st.2.1 = 0) := by
  constructor
  · exact update_states_window n hn inputs f0 s0 hf0 hf1 hs
  · intro hz hfit st hst
    subst hz
    exact update_states_scroll_zero n hn inputs f0 hf0 hf1 hfit st hst

/-- C2 (witness): the amended invariant instantiated on a 10-item menu,
fresh state, one Down keypress at viewport height 5. -/
theorem scroll_window_invariant_amended_witness :
    (∀ fc sc cnt : Int,
        (fc, sc, cnt) ∈ update_states 10 [⟨⟨80, 5⟩, .key DOWN⟩] 0 0 →
        0 ≤ sc ∧ (2 ≤ cnt → cnt < 10 → sc ≤ fc ∧ fc ≤ sc + cnt - 1)) ∧
      ((0 : Int) = 0 →
        (∀ fi ∈ [(⟨⟨80, 5⟩, .key DOWN⟩ : FrameInput)],
          (10 : Int) ≤ fi.size.height) →
        ∀ st ∈ update_states 10 [⟨⟨80, 5⟩, .key DOWN⟩] 0 0, st.2.1 = 0) :=
  scroll_window_invariant_amended 10 [⟨⟨80, 5⟩, .key DOWN⟩] 0 0
    (by decide) (by decide) (by decide) (by decide)

/-- C6 (code evaluated at the failing input): on a 10-item menu starting
from the in-range default focus 0, with the viewport height changing
5 → 5 → 1 → 3 across frames (keys End, Up, Down, then anything),
`_print_menu` reads item index 10, which is outside `[0, 9]` — in Python,
`self.items[10]` raises `IndexError`. -/
theorem print_menu_reads_out_of_range :
    (10 : Int) ∈ (show_loop 10 resize_crash_inputs 0 0).1 ∧
      ¬ ((0 : Int) ≤ 10 ∧ (10 : Int) ≤ 10 - 1) := by decide

/-- On each of the six navigation keys, `_handle_input` takes the
`return False` path with some clamped focus. -/
theorem handle_input_nav_cont (n : Int) (sz : MenuSize) (f : Int)
    (k : List Nat) (hk : k ∈ nav_keys) :
    ∃ f', handle_input n sz f (.key k) = .cont f' := by
  fin_cases hk <;> exact ⟨_, rfl⟩

/-- C3: for every non-empty item list and every sequence of
Up/Down/Home/End/Page-Up/Page-Down inputs (at arbitrary per-frame
viewport sizes) starting from an in-range focus index, the focus index
lies within `[0, len(items) - 1]` after every input. -/
theorem focus_index_stays_in_range (n : Int)
    (inputs : List (MenuSize × List Nat)) (f0 : Int) (hn : 1 ≤ n)
    (hf0 : 0 ≤ f0) (hf1 : f0 ≤ n - 1)
    (hk : ∀ p ∈ inputs, p.2 ∈ nav_keys) :
    ∀ f ∈ nav_focus_states n inputs f0, 0 ≤ f ∧ f ≤ n - 1 := by
  induction inputs generalizing f0 with
  | nil =>
    intro f hf
    simp [nav_focus_states] at hf
  | cons p rest ih =>
    obtain ⟨sz, k⟩ := p
    intro f hf
    obtain ⟨f', hf'⟩ := handle_input_nav_cont n sz f0 k
      (hk (sz, k) (List.mem_cons_self _ _))
    rw [nav_focus_states, hf'] at hf
    obtain ⟨hf0', hf1'⟩ := handle_input_cont_range n sz f0 f' (.key k) hn hf'
    rcases List.mem_cons.mp hf with rfl | htail
    · exact ⟨hf0', hf1'⟩
    · exact ih f' hf0' hf1'
        (fun q hq => hk q (List.mem_cons_of_mem _ hq)) f htail

/-- C3 (witness): on a 3-item menu, after the inputs Down, End, Page-Down
at viewport height 5, the focus reached (2, recorded in the state list) is
in range. -/
theorem focus_index_stays_in_range_witness : 0 ≤ (2 : Int) ∧ (2 : Int) ≤ 3 - 1 :=
  focus_index_stays_in_range 3
    [(⟨80, 5⟩, DOWN), (⟨80, 5⟩, END), (⟨80, 5⟩, PAGE_DOWN)] 0
    (by decide) (by decide) (by decide) (by decide) 2 (by decide)

/-- C4: `_handle_input` implements exactly the key table.  Return takes the
terminating path and the loop returns the item at the unchanged focus
index; Escape raises the cancellation; Up/Down add −1/+1,
Page Up/Page Down add −viewportHeight/+viewportHeight, each then clamped
to `[0, len(items) - 1]`; Home gives focus 0 and End gives
`len(items) - 1`; any other key leaves an in-range focus unchanged. -/
theorem handle_input_key_table (n : Int) (sz : MenuSize) (f s : Int)
    (k : List Nat) (rest : List FrameInput)
    (hf0 : 0 ≤ f) (hf1 : f ≤ n - 1)
    (hk : k ∉ [RETURN, ESCAPE, UP, DOWN, PAGE_UP, PAGE_DOWN, HOME, END]) :
    handle_input n sz f (.key RETURN) = .select ∧
    (show_loop n (⟨sz, .key RETURN⟩ :: rest) f s).2 =
      .selected f (get_scroll_index n sz f s) ∧
    handle_input n sz f (.key ESCAPE) = .cancel ∧
    handle_input n sz f (.key UP) = .cont (clamp_focus n (f - 1)) ∧
    handle_input n sz f (.key DOWN) = .cont (clamp_focus n (f + 1)) ∧
    handle_input n sz f (.key PAGE_UP) = .cont (clamp_focus n (f - sz.height)) ∧
    handle_input n sz f (.key PAGE_DOWN) = .cont (clamp_focus n (f + sz.height)) ∧
    handle_input n sz f (.key HOME) = .cont 0 ∧
    handle_input n sz f (.key END) = .cont (n - 1) ∧
    handle_input n sz f (.key k) = .cont f := by
  simp only [List.mem_cons, not_or] at hk
  obtain ⟨h1, h2, h3, h4, h5, h6, h7, h8, -⟩ := hk
  refine ⟨rfl, rfl, rfl, rfl, rfl, rfl, rfl, ?_, ?_, ?_⟩
  · have : clamp_focus n 0 = 0 := by unfold clamp_focus; omega
    calc handle_input n sz f (.key HOME) = .cont (clamp_focus n 0) := rfl
      _ = .cont 0 := by rw [this]
  · have : clamp_focus n (n - 1) = n - 1 := by unfold clamp_focus; omega
    calc handle_input n sz f (.key END) = .cont (clamp_focus n (n - 1)) := rfl
      _ = .cont (n - 1) := by rw [this]
  · have hcl : clamp_focus n f = f := by unfold clamp_focus; omega
    unfold handle_input
    dsimp only
    rw [if_neg h1, if_neg h2, if_neg h3, if_neg h4, if_neg h5, if_neg h6,
      if_neg h7, if_neg h8, hcl]

/-- C4 (witness): a 3-item menu at viewport height 5, focus 1, with the
letter `x` as the unrecognized key. -/
theorem handle_input_key_table_witness :
    handle_input 3 ⟨80, 5⟩ 1 (.key RETURN) = .select ∧
    (show_loop 3 (⟨⟨80, 5⟩, .key RETURN⟩ :: []) 1 0).2 =
      .selected 1 (get_scroll_index 3 ⟨80, 5⟩ 1 0) ∧
    handle_input 3 ⟨80, 5⟩ 1 (.key ESCAPE) = .cancel ∧
    handle_input 3 ⟨80, 5⟩ 1 (.key UP) = .cont (clamp_focus 3 (1 - 1)) ∧
    handle_input 3 ⟨80, 5⟩ 1 (.key DOWN) = .cont (clamp_focus 3 (1 + 1)) ∧
    handle_input 3 ⟨80, 5⟩ 1 (.key PAGE_UP) =
      .cont (clamp_focus 3 (1 - (⟨80, 5⟩ : MenuSize).height)) ∧
    handle_input 3 ⟨80, 5⟩ 1 (.key PAGE_DOWN) =
      .cont (clamp_focus 3 (1 + (⟨80, 5⟩ : MenuSize).height)) ∧
    handle_input 3 ⟨80, 5⟩ 1 (.key HOME) = .cont 0 ∧
    handle_input 3 ⟨80, 5⟩ 1 (.key END) = .cont (3 - 1) ∧
    handle_input 3 ⟨80, 5⟩ 1 (.key [120]) = .cont 1 :=
  handle_input_key_table 3 ⟨80, 5⟩ 1 0 [120] []
    (by decide) (by decide) (by decide)

/-- C5 (counterexample): menu state is not fresh per `show()` call.  A menu
over 3 items constructed with `default_index = 5` starts its loop at focus
5, not at the clamped 2, and an immediate Return selects index 5 (an
`IndexError` in Python).  And on a 20-item menu with `default_index = 10`
at viewport height 5, a first `show()` (End, Return) leaves
`_scroll_index = 15` on the object; the next `show()` call then prints
rows 9–13, while a fresh menu with the same `default_index` prints rows
7–11. -/
theorem show_fresh_state_counterexample :
    ((menu_show 3 (menu_init 5) [⟨⟨80, 5⟩, .key RETURN⟩]).1.2 =
        .selected 5 0 ∧ ¬ ((5 : Int) ≤ 3 - 1)) ∧
    ((menu_show 20 (menu_init 10)
        [⟨⟨80, 5⟩, .key END⟩, ⟨⟨80, 5⟩, .key RETURN⟩]).2.scroll_index = 15 ∧
      (menu_show 20
        (menu_show 20 (menu_init 10)
          [⟨⟨80, 5⟩, .key END⟩, ⟨⟨80, 5⟩, .key RETURN⟩]).2
        [⟨⟨80, 5⟩, .key RETURN⟩]).1.1 = [9, 10, 11, 12, 13, 10] ∧
      (menu_show 20 (menu_init 10) [⟨⟨80, 5⟩, .key RETURN⟩]).1.1 =
        [7, 8, 9, 10, 11, 10]) := by decide

/-- C5 (amended): `show()` resets only `_focus_index` (to `default_index`
as given, without clamping); `_scroll_index` is 0 at the first `show()`
after construction but persists between invocations — a second `show()`
resumes from the final scroll index of the previous run.  The only object
state that influences a run is `default_index` and the incoming
`_scroll_index`: two menus agreeing on those behave identically, so in
particular the previous `_focus_index` never leaks into a later run. -/
theorem show_state_reuse_amended (n d : Int) (m m' : TerminalMenuState)
    (inputs inputs2 : List FrameInput) :
    (menu_show n (menu_init d) inputs).1 = show_loop n inputs d 0 ∧
    (menu_show n m inputs).1 =
      show_loop n inputs m.default_index m.scroll_index ∧
    (menu_show n (menu_show n m inputs).2 inputs2).1 =
      show_loop n inputs2 m.default_index
        (exit_scroll (show_loop n inputs m.default_index m.scroll_index).2) ∧
    (m.default_index = m'.default_index → m.scroll_index = m'.scroll_index →
      menu_show n m inputs = menu_show n m' inputs) := by
  refine ⟨rfl, rfl, rfl, fun h1 h2 => ?_⟩
  obtain ⟨d1, f1, s1⟩ := m
  obtain ⟨d2, f2, s2⟩ := m'
  simp only at h1 h2
  subst h1
  subst h2
  rfl

/-- C5 (witness): two menu objects differing only in the persisted
`_focus_index` behave identically. -/
theorem show_state_reuse_amended_witness :
    menu_show 2 ⟨1, 5, 3⟩ [] = menu_show 2 ⟨1, 7, 3⟩ [] :=
  (show_state_reuse_amended 2 0 ⟨1, 5, 3⟩ ⟨1, 7, 3⟩ [] []).2.2.2 rfl rfl

/-- C7: on every exit path of the menu loop — selection, cancellation
(`StopMenu`), or a propagating `KeyboardInterrupt` — the write trace of
`show` is the cursor-hide code, then the loop's output (which contains no
cursor-visibility change and no blank line), then the cursor-show code of
`hide_cursor`'s `finally`, then exactly one blank separator line from
`show`'s own `finally`: the trace contains exactly one cursor restore and
exactly one blank line, both after all menu output. -/
theorem show_cleanup_on_every_exit (n : Int) (m : TerminalMenuState)
    (inputs : List FrameInput) :
    show_effects n m inputs =
      .cursorHide ::
        (loop_effects n inputs m.default_index m.scroll_index ++
          [.cursorShow, .blankLine]) ∧
    (∀ e ∈ loop_effects n inputs m.default_index m.scroll_index,
      e ≠ .cursorHide ∧ e ≠ .cursorShow ∧ e ≠ .blankLine) ∧
    (show_effects n m inputs).count .cursorShow = 1 ∧
    (show_effects n m inputs).count .blankLine = 1 := by
  have hmem : ∀ e ∈ loop_effects n inputs m.default_index m.scroll_index,
      e ≠ ShowEffect.cursorHide ∧ e ≠ ShowEffect.cursorShow ∧
        e ≠ ShowEffect.blankLine := by
    intro e he
    rcases loop_effects_mem n inputs m.default_index m.scroll_index e he
      with h | ⟨i, h⟩ | h <;> subst h <;>
      exact ⟨fun h => ShowEffect.noConfusion h,
        fun h => ShowEffect.noConfusion h, fun h => ShowEffect.noConfusion h⟩
  have hcount : ∀ x : ShowEffect, x ≠ ShowEffect.cursorHide →
      (show_effects n m inputs).count x =
        (loop_effects n inputs m.default_index m.scroll_index).count x +
          ([ShowEffect.cursorShow, ShowEffect.blankLine].count x) := by
    intro x hx
    rw [show_effects, List.count_cons, List.count_append]
    simp [Ne.symm hx]
  refine ⟨rfl, hmem, ?_, ?_⟩
  · rw [hcount ShowEffect.cursorShow (fun h => ShowEffect.noConfusion h)]
    rw [List.count_eq_zero.mpr (fun h => (hmem _ h).2.1 rfl)]
    decide
  · rw [hcount ShowEffect.blankLine (fun h => ShowEffect.noConfusion h)]
    rw [List.count_eq_zero.mpr (fun h => (hmem _ h).2.2 rfl)]
    decide

/-- C8: `show_prompt` returns `True` iff the run selected "Yes" (index 0 of
the fresh two-item menu it builds); a canceled run (Escape) yields
`False`, not an error; and with `default_no = True` the initial focus is
on "No", so an immediate Return yields `False` at any viewport size. -/
theorem show_prompt_yes_no (default_no : Bool) (inputs : List FrameInput)
    (sz : MenuSize) :
    (show_prompt default_no inputs = .answer true ↔
      ∃ s, (show_loop 2 inputs (if default_no then 1 else 0) 0).2 =
        .selected 0 s) ∧
    ((∃ f s, (show_loop 2 inputs (if default_no then 1 else 0) 0).2 =
        .canceled f s) → show_prompt default_no inputs = .answer false) ∧
    show_prompt true [⟨sz, .key RETURN⟩] = .answer false := by
  have hrw : show_prompt default_no inputs =
      match (show_loop 2 inputs (if default_no then 1 else 0) 0).2 with
      | .selected f _ => .answer (py_index ["Yes", "No"] f == some "Yes")
      | .canceled _ _ => .answer false
      | .interrupted _ _ => .interrupted
      | .outOfInput _ _ => .outOfInput := by
    cases default_no <;> rfl
  have hf00 : (0 : Int) ≤ (if default_no then 1 else 0) := by
    cases default_no <;> decide
  have hf01 : (if default_no then 1 else 0 : Int) ≤ 2 - 1 := by
    cases default_no <;> decide
  refine ⟨?_, ?_, ?_⟩
  · rw [hrw]
    rcases hE : (show_loop 2 inputs (if default_no then 1 else 0) 0).2
      with ⟨f, s⟩ | ⟨f, s⟩ | ⟨f, s⟩ | ⟨f, s⟩
    · obtain ⟨hfr0, hfr1⟩ := show_loop_selected_range 2 (by decide) inputs
        (if default_no then 1 else 0) 0 f s hf00 hf01 hE
      constructor
      · intro h
        simp only [PromptResult.answer.injEq, beq_iff_eq] at h
        interval_cases f
        · exact ⟨s, rfl⟩
        · exact absurd h (by decide)
      · rintro ⟨s', hs'⟩
        rw [LoopExit.selected.injEq] at hs'
        obtain ⟨rfl, -⟩ := hs'
        rfl
    · constructor
      · intro h
        exact absurd h (by simp)
      · rintro ⟨s', hs'⟩
        exact LoopExit.noConfusion hs'
    · constructor
      · intro h
        exact absurd h (by simp)
      · rintro ⟨s', hs'⟩
        exact LoopExit.noConfusion hs'
    · constructor
      · intro h
        exact absurd h (by simp)
      · rintro ⟨s', hs'⟩
        exact LoopExit.noConfusion hs'
  · rintro ⟨f, s, hE⟩
    rw [hrw, hE]
  · rfl

/-- C8 (witness): pressing Escape immediately at either default answers
`False`, via the cancellation clause of the theorem. -/
theorem show_prompt_yes_no_witness :
    show_prompt false [⟨⟨80, 5⟩, .key ESCAPE⟩] = .answer false :=
  (show_prompt_yes_no false [⟨⟨80, 5⟩, .key ESCAPE⟩] ⟨80, 5⟩).2.1 ⟨0, 0, rfl⟩

/-- C9: for each logical keypress in the vocabulary Return, Up, Down, Left,
Right, Home, End, Page-Up, Page-Down, the Windows console decoder maps the
console event to exactly the byte sequence the termios decoder returns for
the same keypress (the xterm escape sequence, and a lone newline for
Return). -/
theorem read_key_platform_agreement (k : LogicalKey) :
    read_key_windows (windows_events k).1 (windows_events k).2 =
      .key (xterm_bytes k) ∧
    read_key_unix (xterm_bytes k) = xterm_bytes k := by
  cases k <;> exact ⟨by decide, by decide⟩

/-- C10: the text `_print_item` prints between the color escape codes has
length exactly the viewport width, for every item text, focus state and
width: longer text is truncated to the width and shorter text is
right-padded with spaces to the width; the full printed line is that text
wrapped in the SGR color prefix and reset suffix. -/
theorem print_item_exact_width (formatted : List Char) (focused : Bool)
    (width : Nat) (focus_color : List Char) :
    (print_item_text formatted focused width).length = width ∧
    print_item_line formatted focused width focus_color =
      [Char.ofNat 27, '['] ++ (if focused then focus_color else ['0']) ++
        ['m'] ++ print_item_text formatted focused width ++
        [Char.ofNat 27, '[', '0', 'm'] := by
  constructor
  · unfold print_item_text py_ljust
    cases focused <;>
      · dsimp only
        rw [List.length_append, List.length_take, List.length_replicate]
        omega
  · rfl

end ZmkSetup
